import Mathlib

/-!
Verification development for the followup-bot repository (Session Orchestration
Layer).  The Python sources are shallowly embedded: text is `List Char`, the
conversation directory is an association list of (filename, content) pairs in
listing order, wall-clock time is an integer parameter (the claims depend only on its ordered additive arithmetic, so the fractional part of time.time() is immaterial), and every external HTTP
interaction (Notion profile store, Telegram transport, OpenAI backend) is an
explicit oracle argument describing the outcome the Python code would observe.
-/

abbrev Str := List Char

/-- Python whitespace predicate used by str.strip and str.split
(space, tab, newline, carriage return, vertical tab, form feed). -/
def pyIsSpace (c : Char) : Bool :=
  c = ' ' || c = '\t' || c = '\n' || c = '\r' || c = Char.ofNat 11 || c = Char.ofNat 12

/-- Python str.strip(): drop leading and trailing whitespace. -/
def pyStrip (s : Str) : Str :=
  ((s.dropWhile pyIsSpace).reverse.dropWhile pyIsSpace).reverse

/-- Python str.split() with no separator: split on whitespace runs, no empty parts. -/
def pySplit (s : Str) : List Str :=
  (s.splitOnP (fun c => pyIsSpace c)).filter (fun p => p ≠ [])

/-- Python str.lower() (ASCII command names only in this code base). -/
def pyLower (s : Str) : Str := s.map Char.toLower

/-- Helper for file.readlines(): accumulates the current (reversed) line. -/
def pyReadLinesAux : Str → Str → List Str
  | [], acc => if acc = [] then [] else [acc.reverse]
  | c :: rest, acc =>
    if c = '\n' then (acc.reverse ++ ['\n']) :: pyReadLinesAux rest []
    else pyReadLinesAux rest (c :: acc)

/-- Python file.readlines(): split after each newline, keeping the newline,
and keep a trailing segment with no newline. -/
def pyReadLines (s : Str) : List Str := pyReadLinesAux s []

/-- Python filename.replace with pattern ".txt" and empty replacement:
removes every (non-overlapping, leftmost-first) occurrence of ".txt". -/
def pyReplaceTxt : Str → Str
  | [] => []
  | '.' :: 't' :: 'x' :: 't' :: rest => pyReplaceTxt rest
  | c :: rest => c :: pyReplaceTxt rest

-- ===== file_operations.py =====

/-- Characters removed by sanitize_filename's regular expression. -/
def badFilenameChar (c : Char) : Bool :=
  c = '<' || c = '>' || c = ':' || c = '"' || c = '/' || c = '\\' || c = '|' || c = '?' || c = '*'

/-- file_operations.sanitize_filename: replace invalid characters with an
underscore, strip, cap at 50 characters, fall back to a placeholder. -/
def sanitize_filename (filename : Str) : Str :=
  let sanitized := filename.map (fun c => if badFilenameChar c then '_' else c)
  let sanitized := (pyStrip sanitized).take 50
  if sanitized = [] then "unknown_user".toList else sanitized

/-- The conversations directory: (filename, content) pairs in listing order.
os.listdir order is modelled as the list order; newly created files are
appended at the end. -/
abbrev FileSys := List (Str × Str)

def lookupFile : FileSys → Str → Option Str
  | [], _ => none
  | (m, c) :: rest, n => if m = n then some c else lookupFile rest n

/-- open(path, "a") followed by write: append to an existing file in place,
or create the file (at the end of the listing). -/
def appendFile : FileSys → Str → Str → FileSys
  | [], n, d => [(n, d)]
  | (m, c) :: rest, n, d =>
    if m = n then (m, c ++ d) :: rest else (m, c) :: appendFile rest n d

/-- The embedded sender-ID marker written into every log line and searched
for by the content scans: the text composed of "[ID: ", the id text, "]:". -/
def idMarkerOf (displayId : Str) : Str :=
  "[ID: ".toList ++ displayId ++ "]:".toList

/-- Marker for a numeric Telegram user id (str(user_id) in Python). -/
def idMarker (user_id : Int) : Str := idMarkerOf (toString user_id).toList

/-- The shared directory scan of file_operations.py (the loop bodies of
find_username_by_user_id, get_recent_messages, conversation_exists and
archive_conversation are all this search): first file whose name ends in
".txt" and whose content contains the user's ID marker. -/
def findConversationFile : FileSys → Int → Option (Str × Str)
  | [], _ => none
  | (name, content) :: rest, uid =>
    if (".txt".toList <:+ name) ∧ (idMarker uid <:+: content) then some (name, content)
    else findConversationFile rest uid

/-- file_operations.find_username_by_user_id: name (without ".txt") of the
first conversation file containing the user's ID marker. -/
def find_username_by_user_id (fs : FileSys) (user_id : Int) : Option Str :=
  (findConversationFile fs user_id).map (fun p => p.1.take (p.1.length - 4))

/-- One formatted log line: time, author, " [ID: ", display id, "]: --- ",
body, newline. -/
def formatMessageLine (time_info author_name displayId content : Str) : Str :=
  time_info ++ [' '] ++ author_name ++ [' '] ++ idMarkerOf displayId ++
    " --- ".toList ++ content ++ ['\n']

/-- file_operations.save_conversation.  The time stamp (datetime.now rendered
in the fixed zone) is passed in as `time_info`. -/
def save_conversation (fs : FileSys) (user_id : Int) (author_name : Str) (content : Str)
    (author_id : Str) (username : Option Str) (time_info : Str) : FileSys :=
  let filename_to_use : Str :=
    if author_id = "BOT_ID".toList then
      match find_username_by_user_id fs user_id with
      | some n => if n = [] then (toString user_id).toList else n
      | none => (toString user_id).toList
    else
      match username with
      | some u => if u = [] then author_name else u
      | none => author_name
  let safe_filename := sanitize_filename filename_to_use
  let filepath := safe_filename ++ ".txt".toList
  let display_id : Str :=
    if author_id = "USER".toList then (toString user_id).toList else author_id
  appendFile fs filepath (formatMessageLine time_info author_name display_id content)

/-- The filter condition of get_recent_messages: the raw line contains "ID:". -/
def hasIdTag (line : Str) : Bool := decide ("ID:".toList <:+: line)

/-- file_operations.get_recent_messages: resolve the file by marker scan, keep
non-blank lines carrying "ID:", strip each, return the Python slice
lines[-message_count:] (which is the whole list when message_count = 0). -/
def get_recent_messages (fs : FileSys) (user_id : Int) (message_count : Nat) : List Str :=
  match findConversationFile fs user_id with
  | none => []
  | some (_, content) =>
    let lines := pyReadLines content
    let user_messages :=
      (lines.filter (fun l => !(pyStrip l).isEmpty && hasIdTag l)).map pyStrip
    if message_count = 0 then user_messages
    else user_messages.drop (user_messages.length - message_count)

/-- file_operations.archive_conversation: rename the first conversation file
containing the user's marker to base + "_archived_" + timestamp + ".txt"
(base is filename.replace of ".txt" by nothing); report success. -/
def archive_conversation : FileSys → Int → Str → Bool × FileSys
  | [], _, _ => (false, [])
  | (name, content) :: rest, uid, timestamp =>
    if (".txt".toList <:+ name) ∧ (idMarker uid <:+: content) then
      (true, (pyReplaceTxt name ++ "_archived_".toList ++ timestamp ++ ".txt".toList,
              content) :: rest)
    else
      let r := archive_conversation rest uid timestamp
      (r.1, (name, content) :: r.2)

-- ===== openai_integration.py : RateLimiter =====

def lookupAssoc {α : Type} : List (Int × α) → Int → Option α
  | [], _ => none
  | (k, v) :: rest, key => if k = key then some v else lookupAssoc rest key

def setAssoc {α : Type} : List (Int × α) → Int → α → List (Int × α)
  | [], key, v => [(key, v)]
  | (k, w) :: rest, key, v =>
    if k = key then (k, v) :: rest else (k, w) :: setAssoc rest key v

/-- openai_integration.RateLimiter state: the fixed minimum interval and the
per-user last-permitted timestamps (a dict, modelled as an association list).
time.time() values are modelled as rationals. -/
structure RateLimiter where
  min_interval : Int
  user_last_request : List (Int × Int)
deriving DecidableEq

/-- RateLimiter.can_make_request: deny with the remaining wait when the
elapsed time since the last permitted request (0 when absent) is below the
minimum interval, leaving the state untouched; otherwise allow, record now. -/
def can_make_request (rl : RateLimiter) (user_id : Int) (now : Int) :
    Bool × Int × RateLimiter :=
  let last_request := (lookupAssoc rl.user_last_request user_id).getD 0
  if now - last_request < rl.min_interval then
    (false, rl.min_interval - (now - last_request), rl)
  else
    (true, 0, { rl with user_last_request := setAssoc rl.user_last_request user_id now })

-- ===== k2_notion_general_manager.py : NotionClient =====

/-- config.CONTEXT_WINDOW_DEFAULT. -/
def CONTEXT_WINDOW_DEFAULT : Int := 20

/-- config.ADMIN_USER_ID, the hardcoded primary (fallback) admin. -/
def ADMIN_USER_ID : Int := 6904183057

/-- NotionClient._cache_ttl (seconds). -/
def cache_ttl : Int := 300

/-- The tuple cached and returned by NotionClient.get_user_authorization:
(authorized, profile text, context window size, display name). -/
structure AuthRecord where
  authorized : Bool
  profile_text : Str
  context_lines : Int
  username : Str
deriving DecidableEq

/-- The tuple returned when the user is not found or the lookup failed:
(False, "", CONTEXT_WINDOW_DEFAULT, "Unknown"). -/
def defaultDenyRecord : AuthRecord :=
  ⟨false, [], CONTEXT_WINDOW_DEFAULT, "Unknown".toList⟩

/-- The fields get_user_authorization reads off the single Notion row:
the Name title text (none when the title list is empty), the can_chat_bot
checkbox, the context_lines number (none when the property is missing or
null), and all (property name, extracted text) pairs of the row, extraction
of each Notion property type being taken as given. -/
structure NotionUserRecord where
  name : Option Str
  can_chat_bot : Bool
  context_lines : Option Int
  props : List (Str × Str)
deriving DecidableEq

/-- The field names skipped when building the profile text. -/
def systemFields : List Str :=
  ["Name".toList, "telegram_handle".toList, "telegram_user_id".toList,
   "can_chat_bot".toList, "context_lines".toList, "active".toList]

/-- Profile text built by get_user_authorization: one "name: text" line per
non-system field with non-empty extracted text, joined by newlines. -/
def buildProfileText (props : List (Str × Str)) : Str :=
  List.intercalate ['\n']
    ((props.filter (fun p => p.1 ∉ systemFields ∧ p.2 ≠ [])).map
      (fun p => p.1 ++ ": ".toList ++ p.2))

/-- The success-path parse of get_user_authorization.  A missing or null or
zero context_lines number falls back to the default (Python truthiness of
the int() guard). -/
def parseUserRecord (rec : NotionUserRecord) : AuthRecord :=
  let username := rec.name.getD "Unknown".toList
  let context_lines : Int :=
    match rec.context_lines with
    | some n => if n ≠ 0 then n else CONTEXT_WINDOW_DEFAULT
    | none => CONTEXT_WINDOW_DEFAULT
  ⟨rec.can_chat_bot, buildProfileText rec.props, context_lines, username⟩

/-- What the Python code observes of one profile-store query:
`failure` is _make_request returning None (a requests exception, a timeout,
or a non-2xx status); `notFound` is a 2xx response with no matching rows;
`found` is a 2xx response whose first row parses to the given record;
`parseError` is an exception raised while processing the response body
(caught by the outer try of get_user_authorization). -/
inductive QueryOutcome where
  | failure : QueryOutcome
  | notFound : QueryOutcome
  | found : NotionUserRecord → QueryOutcome
  | parseError : QueryOutcome
deriving DecidableEq

/-- NotionClient cache state: _user_cache and _cache_expires. -/
structure NotionState where
  user_cache : List (Int × AuthRecord)
  cache_expires : List (Int × Int)
deriving DecidableEq

/-- The body of get_user_authorization past the cache check.  A None or empty
response is recorded in the cache as a denial; a parse exception returns the
cached record when one exists (with no expiry check and no cache write),
otherwise the default denial. -/
def queryAuth (st : NotionState) (uid : Int) (now : Int) (q : QueryOutcome) :
    AuthRecord × NotionState :=
  match q with
  | .failure =>
    (defaultDenyRecord,
     ⟨setAssoc st.user_cache uid defaultDenyRecord,
      setAssoc st.cache_expires uid (now + cache_ttl)⟩)
  | .notFound =>
    (defaultDenyRecord,
     ⟨setAssoc st.user_cache uid defaultDenyRecord,
      setAssoc st.cache_expires uid (now + cache_ttl)⟩)
  | .found rec =>
    let r := parseUserRecord rec
    (r, ⟨setAssoc st.user_cache uid r, setAssoc st.cache_expires uid (now + cache_ttl)⟩)
  | .parseError =>
    match lookupAssoc st.user_cache uid with
    | some r => (r, st)
    | none => (defaultDenyRecord, st)

/-- The cache check at the top of get_user_authorization: both maps hold the
key and the expiry is in the future. -/
def cacheHit (st : NotionState) (uid : Int) (now : Int) : Bool :=
  match lookupAssoc st.user_cache uid, lookupAssoc st.cache_expires uid with
  | some _, some e => now < e
  | _, _ => false

/-- NotionClient.get_user_authorization: return the unexpired cached record
when present, otherwise run the query path. -/
def get_user_authorization (st : NotionState) (uid : Int) (now : Int) (q : QueryOutcome) :
    AuthRecord × NotionState :=
  match lookupAssoc st.user_cache uid, lookupAssoc st.cache_expires uid with
  | some r, some e => if now < e then (r, st) else queryAuth st uid now q
  | some _, none => queryAuth st uid now q
  | none, _ => queryAuth st uid now q

/-- NotionClient.update_user_access.  The four optional properties mirror the
keyword arguments; `resp` is the PATCH outcome (None on any HTTP failure).
On success the entire authorization cache is cleared. -/
def update_user_access (st : NotionState) (telegram_user_id : Option Int)
    (can_chat_bot active admin : Option Bool) (resp : Option Unit) :
    Bool × NotionState :=
  if telegram_user_id = none ∧ can_chat_bot = none ∧ active = none ∧ admin = none then
    (false, st)
  else
    match resp with
    | some _ => (true, ⟨[], []⟩)
    | none => (false, st)

/-- NotionClient.create_user_from_telegram_data: the built properties are
always non-empty; success is a non-None POST response and clears the cache. -/
def create_user_from_telegram_data (st : NotionState) (resp : Option Unit) :
    Bool × NotionState :=
  match resp with
  | some _ => (true, ⟨[], []⟩)
  | none => (false, st)

/-- NotionClient.get_admin_users.  `resp` is the query outcome: None yields
the fallback roster; otherwise the rows' telegram_user_id numbers (skipping
null and zero ids and duplicates) are appended to the primary admin. -/
def get_admin_users (resp : Option (List (Option Int))) : List Int :=
  match resp with
  | none => [ADMIN_USER_ID]
  | some pages =>
    pages.foldl
      (fun admin_ids tid? =>
        match tid? with
        | some tid => if tid ≠ 0 ∧ tid ∉ admin_ids then admin_ids ++ [tid] else admin_ids
        | none => admin_ids)
      [ADMIN_USER_ID]

-- ===== k2_notion_general_manager.py : TelegramBot =====

/-- The fixed outbound notices, kept symbolic: each constructor stands for
the literal text the Python code sends (config.UNAUTHORIZED_MESSAGE,
config.GROUP_REDIRECT_MESSAGE, the formatted wait notice, the AI response
text, the admin-command replies, the degraded-service apology). -/
inductive OutMessage where
  | unauthorized : OutMessage
  | groupRedirect : OutMessage
  | rateLimitWait : Int → OutMessage
  | aiResponse : Str → OutMessage
  | usage : OutMessage
  | userNotFound : OutMessage
  | cannotRemovePrimaryAdmin : OutMessage
  | adminDemoted : OutMessage
  | updateFailed : OutMessage
  | techDifficulties : OutMessage
deriving DecidableEq

/-- One observable effect of handling an update.  Admin and plain command
handlers are abstracted to a single dispatch effect each (their internal
sends and Notion calls are modelled separately where a claim needs them);
notionPatch marks an update_user_access PATCH being issued. -/
inductive BotAction where
  | saveConv : Int → Str → Str → Str → BotAction
  | sendText : Int → OutMessage → BotAction
  | sendTyping : Int → BotAction
  | notionPatch : BotAction
  | backendCall : BotAction
  | adminDispatch : Str → BotAction
  | plainCommand : Str → BotAction
deriving DecidableEq

/-- The dict returned by NotionClient.find_user_by_handle, restricted to the
fields _admin_remove_admin_sync reads. -/
structure UserInfo where
  notion_id : Str
  name : Str
  telegram_user_id : Option Int
deriving DecidableEq

/-- TelegramBot._admin_remove_admin_sync.  Oracles: `user_info` is the
find_user_by_handle result, `patch_resp` the PATCH outcome, `reload_resp`
the get_admin_users query outcome used by the roster reload.  Returns the
emitted effects, the resulting admin roster, and the Notion cache state. -/
def admin_remove_admin_sync (text : Str) (chat_id : Int) (user_info : Option UserInfo)
    (patch_resp : Option Unit) (reload_resp : Option (List (Option Int)))
    (admin_users : List Int) (st : NotionState) :
    List BotAction × List Int × NotionState :=
  let parts := pySplit text
  if parts.length < 2 then ([.sendText chat_id .usage], admin_users, st)
  else
    match user_info with
    | none => ([.sendText chat_id .userNotFound], admin_users, st)
    | some u =>
      if u.telegram_user_id = some ADMIN_USER_ID then
        ([.sendText chat_id .cannotRemovePrimaryAdmin], admin_users, st)
      else
        let r := update_user_access st none none none (some false) patch_resp
        if r.1 then
          ([.notionPatch, .sendText chat_id .adminDemoted], get_admin_users reload_resp, r.2)
        else
          ([.notionPatch, .sendText chat_id .updateFailed], admin_users, r.2)

/-- Python text.startswith of the command slash. -/
def startsWithSlash : Str → Bool
  | c :: _ => c = '/'
  | [] => false

/-- The dispatch condition of TelegramBot._handle_admin_command_sync: the
lowered first word and the argument-count guard of each branch.  Returns the
matched command (the handler then runs and the method returns True), or none
(the method returns False and handling falls through). -/
def admin_command_match (text : Str) : Option Str :=
  match pySplit text with
  | [] => none
  | cmd :: restParts =>
    let c := pyLower cmd
    let n := restParts.length + 1
    if (c = "/add".toList ∨ c = "/remove".toList ∨ c = "/activate".toList ∨
        c = "/deactivate".toList ∨ c = "/add_id".toList ∨ c = "/make_admin".toList ∨
        c = "/remove_admin".toList) ∧ 2 ≤ n then some c
    else if c = "/admin_help".toList ∨ c = "/refresh_admins".toList then some c
    else none

/-- The lowered first word of the text, as computed by _handle_command_sync
(text.split()[0].lower(); [] when the text is all whitespace, in which case
the Python code would raise an IndexError caught at the update boundary). -/
def firstWordLower (text : Str) : Str :=
  match pySplit text with
  | [] => []
  | w :: _ => pyLower w

/-- One inbound Telegram message, with the optional fields the handler reads
(message.get chains returning None when absent). -/
structure InMessage where
  from_id : Option Int
  chat_id : Option Int
  text : Str
  first_name : Option Str
deriving DecidableEq

/-- TelegramBot._process_ai_conversation_sync: typing indicator, history read
(bounded by the user's context window), backend call, then either the logged
and echoed response or the logged and echoed degraded-service apology.
`backend` is the chat_with_openai outcome (none models a null content). -/
def process_ai_conversation_sync (user_id chat_id : Int) (fs : FileSys)
    (backend : Option Str) (time_info : Str) :
    List BotAction × FileSys :=
  match backend with
  | some t =>
    if t ≠ [] then
      ([.sendTyping chat_id, .backendCall,
        .saveConv user_id "10x GM AI".toList t "BOT_ID".toList,
        .sendText chat_id (.aiResponse t)],
       save_conversation fs user_id "10x GM AI".toList t "BOT_ID".toList none time_info)
    else
      ([.sendTyping chat_id, .backendCall,
        .saveConv user_id "10x GM AI".toList [] "BOT_ID".toList,
        .sendText chat_id .techDifficulties],
       save_conversation fs user_id "10x GM AI".toList [] "BOT_ID".toList none time_info)
  | none =>
    ([.sendTyping chat_id, .backendCall,
      .saveConv user_id "10x GM AI".toList [] "BOT_ID".toList,
      .sendText chat_id .techDifficulties],
     save_conversation fs user_id "10x GM AI".toList [] "BOT_ID".toList none time_info)

/-- TelegramBot._handle_message_sync.  State threaded through: conversation
directory, Notion cache, rate limiter.  Oracles: the admin roster, the
profile-store query outcome `q`, the backend outcome, the clock `now`, and
the rendered time stamp.  Returns the emitted effects and the new state. -/
def handle_message_sync (msg : InMessage) (admin_users : List Int) (fs : FileSys)
    (st : NotionState) (rl : RateLimiter) (q : QueryOutcome) (backend : Option Str)
    (now : Int) (time_info : Str) :
    List BotAction × FileSys × NotionState × RateLimiter :=
  match msg.from_id, msg.chat_id with
  | some user_id, some chat_id =>
    if user_id = 0 ∨ chat_id = 0 ∨ msg.text = [] then ([], fs, st, rl)
    else
      let username := msg.first_name.getD "Unknown".toList
      let fs₁ := save_conversation fs user_id username msg.text "USER".toList none time_info
      let logAct := BotAction.saveConv user_id username msg.text "USER".toList
      if startsWithSlash msg.text ∧ user_id ∈ admin_users then
        match admin_command_match msg.text with
        | some cmd => ([logAct, .adminDispatch cmd], fs₁, st, rl)
        | none =>
          if startsWithSlash msg.text then
            ([logAct, .plainCommand (firstWordLower msg.text)], fs₁, st, rl)
          else stageGroup user_id chat_id fs₁ logAct
      else if startsWithSlash msg.text then
        ([logAct, .plainCommand (firstWordLower msg.text)], fs₁, st, rl)
      else stageGroup user_id chat_id fs₁ logAct
  | _, _ => ([], fs, st, rl)
where
  stageGroup (user_id chat_id : Int) (fs₁ : FileSys) (logAct : BotAction) :
      List BotAction × FileSys × NotionState × RateLimiter :=
    if chat_id < 0 then
      ([logAct, .sendText chat_id .groupRedirect], fs₁, st, rl)
    else
      let a := get_user_authorization st user_id now q
      if ¬ a.1.authorized then
        ([logAct, .sendText chat_id .unauthorized], fs₁, a.2, rl)
      else
        let c := can_make_request rl user_id now
        if ¬ c.1 then
          ([logAct, .sendText chat_id (.rateLimitWait c.2.1)], fs₁, a.2, c.2.2)
        else
          let p := process_ai_conversation_sync user_id chat_id fs₁ backend time_info
          (logAct :: p.1, p.2, a.2, c.2.2)

-- ===== k2_notion_general_manager.py : update polling =====

/-- The offset field of the getUpdates request body: present (one past the
stored offset) exactly when the stored offset is non-zero (Python truthiness
of self.last_update_id). -/
def get_updates_offset_param (last_update_id : Int) : Option Int :=
  if last_update_id ≠ 0 then some (last_update_id + 1) else none

/-- TelegramBot._get_updates, reduced to offsets: `resp` is none on any HTTP
error or non-ok payload (the method returns [] leaving the offset), and
some ids on success.  A non-empty batch advances the stored offset to the
last update id of the batch. -/
def get_updates_step (last_update_id : Int) (resp : Option (List Int)) :
    List Int × Int :=
  match resp with
  | none => ([], last_update_id)
  | some updates =>
    match updates.getLast? with
    | none => (updates, last_update_id)
    | some u => (updates, u)

-- ===== claim-specific constants and scenarios =====

/-- A cache state holding an authorized record for user 1 that expired at
time 10. -/
def c1CachedState : NotionState :=
  ⟨[(1, ⟨true, "p".toList, 5, "A".toList⟩)], [(1, 10)]⟩

/-- A fresh log for user 7 named bob, used by the C6 counterexample. -/
def c6Fs : FileSys :=
  save_conversation [] 7 "bob".toList "hi".toList "USER".toList none "t1".toList

/-- A 51-character display name whose sanitized form is truncated at 50
characters to end in a space: 49 letters, a space, one more letter.
Telegram first names may be up to 64 characters, so this input is
reachable. -/
def c3LongName : Str := List.replicate 49 'a' ++ [' ', 'b']

/-- The directory after the user's message is saved. -/
def c3AfterUserMsg : FileSys :=
  save_conversation [] 42 c3LongName "hello".toList "USER".toList none "t1".toList

/-- The directory after the responder's reply for the same user is saved. -/
def c3AfterBotReply : FileSys :=
  save_conversation c3AfterUserMsg 42 "10x GM AI".toList "ok".toList "BOT_ID".toList none
    "t2".toList

/-- The log line body (without the trailing newline) of one user message. -/
def userLineBody (uid : Int) (name time_info content : Str) : Str :=
  time_info ++ [' '] ++ name ++ [' '] ++ idMarker uid ++ " --- ".toList ++ content

/-- N successive user-message saves for the same user and display name:
(time_info, content) pairs folded through save_conversation. -/
def appendUserMessages (fs : FileSys) (uid : Int) (name : Str)
    (msgs : List (Str × Str)) : FileSys :=
  msgs.foldl (fun acc m => save_conversation acc uid name m.2 "USER".toList none m.1) fs

/-- A one-message log for user 7, used by the C4 counterexample. -/
def c4OneMessageFs : FileSys :=
  save_conversation [] 7 "bob".toList "hi".toList "USER".toList none "t1".toList

/-- The unconditional audit-log effect of one valid inbound message. -/
def loggedAction (msg : InMessage) (user_id : Int) : BotAction :=
  .saveConv user_id (msg.first_name.getD "Unknown".toList) msg.text "USER".toList

/-- The conversation directory after the unconditional audit-log append. -/
def loggedFs (msg : InMessage) (user_id : Int) (fs : FileSys) (time_info : Str) : FileSys :=
  save_conversation fs user_id (msg.first_name.getD "Unknown".toList) msg.text
    "USER".toList none time_info

-- ===== shared lemmas =====

theorem lookupAssoc_setAssoc_self {α : Type} (l : List (Int × α)) (k : Int) (v : α) :
    lookupAssoc (setAssoc l k v) k = some v := by
  induction l with
  | nil => simp [setAssoc, lookupAssoc]
  | cons p rest ih =>
    by_cases h : p.1 = k
    · simp [setAssoc, lookupAssoc, h]
    · simp [setAssoc, lookupAssoc, h, ih]

theorem get_user_authorization_of_not_hit (st : NotionState) (uid : Int) (now : Int)
    (h : cacheHit st uid now = false) (q : QueryOutcome) :
    get_user_authorization st uid now q = queryAuth st uid now q := by
  unfold get_user_authorization
  unfold cacheHit at h
  cases hm : lookupAssoc st.user_cache uid <;>
    cases he : lookupAssoc st.cache_expires uid <;>
      simp [hm, he] at h ⊢
  intro hlt
  exact absurd hlt (not_lt.mpr h)

theorem can_make_request_denied_state (rl : RateLimiter) (uid : Int) (now : Int)
    (h : (can_make_request rl uid now).1 = false) :
    (can_make_request rl uid now).2.2 = rl := by
  by_cases hc : now - (lookupAssoc rl.user_last_request uid).getD 0 < rl.min_interval
  · simp [can_make_request, hc]
  · simp [can_make_request, hc] at h

theorem mem_of_getLast?_eq : ∀ (l : List Int) (m : Int), l.getLast? = some m → m ∈ l := by
  intro l
  induction l with
  | nil => intro m h; simp at h
  | cons a t ih =>
    intro m h
    cases t with
    | nil => simp at h; simp [h]
    | cons b t' =>
      rw [List.getLast?_cons_cons] at h
      exact List.mem_cons_of_mem a (ih m h)

theorem le_getLast?_of_sorted : ∀ (l : List Int), l.Sorted (· ≤ ·) →
    ∀ m, l.getLast? = some m → ∀ x ∈ l, x ≤ m := by
  intro l
  induction l with
  | nil => intro _ m h; simp at h
  | cons a t ih =>
    intro hs m h x hx
    cases t with
    | nil =>
      simp at h
      simp at hx
      simp [hx, h]
    | cons b t' =>
      rw [List.getLast?_cons_cons] at h
      rw [List.sorted_cons] at hs
      rcases List.mem_cons.mp hx with hxa | hxt
      · exact hxa ▸ le_trans (hs.1 m (mem_of_getLast?_eq _ m h)) le_rfl
      · exact ih hs.2 m h x hxt

theorem mem_foldl_of_step_mono {α β : Type} (f : List α → β → List α) (a : α)
    (hf : ∀ acc x, acc ⊆ f acc x) :
    ∀ (l : List β) (acc : List α), a ∈ acc → a ∈ l.foldl f acc := by
  intro l
  induction l with
  | nil => intro acc h; exact h
  | cons x xs ih => intro acc h; exact ih (f acc x) (hf acc x h)

-- ===== Claim C1 =====

/-- C1 counterexample: a cached value for user 1 exists, yet after its TTL
has lapsed a profile-store query failure does not fall back to it —
get_user_authorization returns the default denial instead of the cached
record, contradicting the claim that on query failure the result falls back
to the last cached value whenever one exists. -/
theorem c1_query_failure_counterexample :
    lookupAssoc c1CachedState.user_cache 1 = some ⟨true, "p".toList, 5, "A".toList⟩ ∧
    (get_user_authorization c1CachedState 1 400 .failure).1 = defaultDenyRecord ∧
    (⟨true, "p".toList, 5, "A".toList⟩ : AuthRecord) ≠ defaultDenyRecord := by
  decide

/-- C1 (amended): when the cache holds no unexpired entry, a profile-store
query failure makes authorize return unauthorized with empty profile text
and the default context window size and cache that denial — regardless of
any stale cached value; only an exception while processing a response falls
back to the last cached value (or denies when none exists); and an
authorized result can only come from a parsed profile row or from a
previously cached authorized record, never from the query error itself. -/
theorem c1_query_failure_fail_closed (st : NotionState) (uid : Int) (now : Int)
    (hmiss : cacheHit st uid now = false) :
    ((get_user_authorization st uid now .failure).1 = defaultDenyRecord ∧
     lookupAssoc (get_user_authorization st uid now .failure).2.user_cache uid =
       some defaultDenyRecord ∧
     lookupAssoc (get_user_authorization st uid now .failure).2.cache_expires uid =
       some (now + cache_ttl)) ∧
    (∀ r, lookupAssoc st.user_cache uid = some r →
       get_user_authorization st uid now .parseError = (r, st)) ∧
    (lookupAssoc st.user_cache uid = none →
       get_user_authorization st uid now .parseError = (defaultDenyRecord, st)) ∧
    (∀ q, (get_user_authorization st uid now q).1.authorized = true →
       (∃ rec, q = .found rec ∧
          (get_user_authorization st uid now q).1 = parseUserRecord rec) ∨
       (∃ r, lookupAssoc st.user_cache uid = some r ∧ r.authorized = true)) := by
  have hq := get_user_authorization_of_not_hit st uid now hmiss
  refine ⟨?_, ?_, ?_, ?_⟩
  · rw [hq]
    exact ⟨rfl, lookupAssoc_setAssoc_self _ _ _, lookupAssoc_setAssoc_self _ _ _⟩
  · intro r hr
    rw [hq]
    simp [queryAuth, hr]
  · intro hr
    rw [hq]
    simp [queryAuth, hr]
  · intro q hauth
    rw [hq] at hauth
    cases q with
    | failure => simp [queryAuth, defaultDenyRecord] at hauth
    | notFound => simp [queryAuth, defaultDenyRecord] at hauth
    | found rec => exact Or.inl ⟨rec, rfl, by rw [hq]; rfl⟩
    | parseError =>
      cases hr : lookupAssoc st.user_cache uid with
      | none => simp only [queryAuth, hr] at hauth; simp [defaultDenyRecord] at hauth
      | some r =>
        simp only [queryAuth, hr] at hauth
        exact Or.inr ⟨r, rfl, hauth⟩

/-- C1 witness: a fresh cache with a failing query denies access. -/
theorem c1_query_failure_fail_closed_witness :
    (get_user_authorization ⟨[], []⟩ 1 0 .failure).1 = defaultDenyRecord ∧
    get_user_authorization ⟨[], []⟩ 1 0 .parseError = (defaultDenyRecord, ⟨[], []⟩) :=
  ⟨(c1_query_failure_fail_closed ⟨[], []⟩ 1 0 rfl).1.1,
   (c1_query_failure_fail_closed ⟨[], []⟩ 1 0 rfl).2.2.1 rfl⟩

-- ===== Claim C2 =====

/-- C2: every successful administrative mutation (update_user_access, used
by grant, revoke, activate, deactivate, promote and demote, and
create_user_from_telegram_data, used by create) clears every entry of the
authorization cache, so an authorize call issued right after a successful
mutation takes the query path — its result is that of a fresh, empty cache,
independent of any pre-mutation cached record and TTL. -/
theorem c2_mutation_clears_cache :
    (∀ (st : NotionState) (tuid : Option Int) (ccb active admin : Option Bool)
       (resp : Option Unit),
       (update_user_access st tuid ccb active admin resp).1 = true →
       (update_user_access st tuid ccb active admin resp).2 = ⟨[], []⟩ ∧
       ∀ uid now q,
         get_user_authorization (update_user_access st tuid ccb active admin resp).2 uid now q =
           queryAuth ⟨[], []⟩ uid now q) ∧
    (∀ (st : NotionState) (resp : Option Unit),
       (create_user_from_telegram_data st resp).1 = true →
       (create_user_from_telegram_data st resp).2 = ⟨[], []⟩ ∧
       ∀ uid now q,
         get_user_authorization (create_user_from_telegram_data st resp).2 uid now q =
           queryAuth ⟨[], []⟩ uid now q) := by
  constructor
  · intro st tuid ccb active admin resp hsucc
    by_cases hprops : tuid = none ∧ ccb = none ∧ active = none ∧ admin = none
    · simp [update_user_access, hprops] at hsucc
    · cases resp with
      | none => simp [update_user_access, hprops] at hsucc
      | some u =>
        refine ⟨by simp [update_user_access, hprops], ?_⟩
        intro uid now q
        simp [update_user_access, hprops, get_user_authorization, lookupAssoc]
  · intro st resp hsucc
    cases resp with
    | none => simp [create_user_from_telegram_data] at hsucc
    | some u =>
      refine ⟨rfl, ?_⟩
      intro uid now q
      simp [create_user_from_telegram_data, get_user_authorization, lookupAssoc]

/-- C2 witness: a concrete revoke-style PATCH success and a concrete create
success both leave an empty cache. -/
theorem c2_mutation_clears_cache_witness :
    (update_user_access ⟨[(1, defaultDenyRecord)], [(1, 5)]⟩ none (some false) none none
        (some ())).2 = ⟨[], []⟩ ∧
    (create_user_from_telegram_data ⟨[(1, defaultDenyRecord)], [(1, 5)]⟩ (some ())).2 =
      ⟨[], []⟩ :=
  ⟨(c2_mutation_clears_cache.1 ⟨[(1, defaultDenyRecord)], [(1, 5)]⟩ none (some false) none none
      (some ()) rfl).1,
   (c2_mutation_clears_cache.2 ⟨[(1, defaultDenyRecord)], [(1, 5)]⟩ (some ()) rfl).1⟩

-- ===== Claim C5 =====

/-- C5: a check less than the minimum interval after the user's last
permitted request denies with a strictly positive remaining wait and leaves
the rate-limit state unchanged; a check at least the interval after the last
permitted request — or with no prior request, once the wall clock exceeds
the interval — allows with zero wait and records now as the user's
last-permitted timestamp. -/
theorem c5_can_make_request_spec (rl : RateLimiter) (uid : Int) (now : Int) :
    (∀ lastq, lookupAssoc rl.user_last_request uid = some lastq →
       now - lastq < rl.min_interval →
       can_make_request rl uid now = (false, rl.min_interval - (now - lastq), rl) ∧
       0 < rl.min_interval - (now - lastq)) ∧
    (∀ lastq, lookupAssoc rl.user_last_request uid = some lastq →
       rl.min_interval ≤ now - lastq →
       can_make_request rl uid now =
         (true, 0, { rl with user_last_request := setAssoc rl.user_last_request uid now })) ∧
    (lookupAssoc rl.user_last_request uid = none → rl.min_interval ≤ now →
       can_make_request rl uid now =
         (true, 0, { rl with user_last_request := setAssoc rl.user_last_request uid now })) ∧
    (∀ b w rl2, can_make_request rl uid now = (b, w, rl2) → b = true →
       lookupAssoc rl2.user_last_request uid = some now) := by
  refine ⟨?_, ?_, ?_, ?_⟩
  · intro lastq hl hlt
    constructor
    · simp [can_make_request, hl, hlt]
    · linarith
  · intro lastq hl hge
    simp [can_make_request, hl, not_lt.mpr hge]
  · intro hl hge
    have : now - (0:Int) = now := by ring
    simp [can_make_request, hl, this, not_lt.mpr hge]
  · intro b w rl2 heq hb
    subst hb
    by_cases hc : now - (lookupAssoc rl.user_last_request uid).getD 0 < rl.min_interval
    · simp [can_make_request, hc] at heq
    · simp [can_make_request, hc] at heq
      rw [← heq.2]
      exact lookupAssoc_setAssoc_self _ _ _

/-- C5 witness: with interval 2 and a last request at 10, a check at 11 is
denied with wait 1 and unchanged state, a check at 12 is allowed recording
12, and a first-ever check at 5 is allowed recording 5. -/
theorem c5_can_make_request_spec_witness :
    can_make_request ⟨2, [(1, 10)]⟩ 1 11 = (false, 1, ⟨2, [(1, 10)]⟩) ∧
    can_make_request ⟨2, [(1, 10)]⟩ 1 12 = (true, 0, ⟨2, [(1, 12)]⟩) ∧
    can_make_request ⟨2, []⟩ 1 5 = (true, 0, ⟨2, [(1, 5)]⟩) := by
  have h1 := ((c5_can_make_request_spec ⟨2, [(1, 10)]⟩ 1 11).1 10 rfl (by decide)).1
  have h2 := (c5_can_make_request_spec ⟨2, [(1, 10)]⟩ 1 12).2.1 10 rfl (by decide)
  have h3 := (c5_can_make_request_spec ⟨2, []⟩ 1 5).2.2.1 rfl (by decide)
  refine ⟨?_, ?_, ?_⟩
  · rw [h1]; decide
  · rw [h2]; decide
  · rw [h3]; decide

-- ===== Claim C8 =====

/-- C8: after a fetch returning a non-empty batch (whose update ids arrive in
ascending order, as the transport delivers them), the stored offset equals the
highest update id of the batch, and — the ids being non-zero in practice —
the next fetch requests updates from one past that id; a failed fetch or an
empty batch leaves the stored offset unchanged, so no update id is skipped. -/
theorem c8_offset_tracks_highest (last : Int) (us : List Int) (m : Int)
    (hsort : us.Sorted (· ≤ ·)) (hlast : us.getLast? = some m) :
    (get_updates_step last (some us)).2 = m ∧
    m ∈ us ∧ (∀ x ∈ us, x ≤ m) ∧
    (m ≠ 0 → get_updates_offset_param (get_updates_step last (some us)).2 = some (m + 1)) ∧
    get_updates_step last none = ([], last) ∧
    get_updates_step last (some []) = ([], last) := by
  have hoff : (get_updates_step last (some us)).2 = m := by
    simp [get_updates_step, hlast]
  refine ⟨hoff, mem_of_getLast?_eq us m hlast, le_getLast?_of_sorted us hsort m hlast,
    ?_, rfl, rfl⟩
  intro hm0
  rw [hoff]
  simp [get_updates_offset_param, hm0]

/-- C8 witness: batch with ids 1, 2, 5 advances the offset to 5 and the next
request asks for 6; a failed fetch keeps the offset. -/
theorem c8_offset_tracks_highest_witness :
    (get_updates_step 0 (some [1, 2, 5])).2 = 5 ∧
    get_updates_offset_param (get_updates_step 0 (some [1, 2, 5])).2 = some 6 ∧
    get_updates_step 7 none = ([], 7) := by
  have h := c8_offset_tracks_highest 0 [1, 2, 5] 5 (by decide) rfl
  have h7 := c8_offset_tracks_highest 7 [1, 2, 5] 5 (by decide) rfl
  exact ⟨h.1, h.2.2.2.1 (by decide), h7.2.2.2.2.1⟩

-- ===== Claim C9 =====

/-- C9: the demote handler refuses whenever the target's user id equals the
hardcoded fallback admin id — no PATCH effect is emitted, the roster and the
Notion cache are unchanged — and every load or reload of the admin roster
(get_admin_users, for any query outcome) contains the fallback admin id and
hence is never empty. -/
theorem c9_demote_guard_and_roster :
    (∀ (text : Str) (chat_id : Int) (u : UserInfo) (patch_resp : Option Unit)
       (reload_resp : Option (List (Option Int))) (admin_users : List Int)
       (st : NotionState),
       2 ≤ (pySplit text).length →
       u.telegram_user_id = some ADMIN_USER_ID →
       admin_remove_admin_sync text chat_id (some u) patch_resp reload_resp admin_users st =
         ([.sendText chat_id .cannotRemovePrimaryAdmin], admin_users, st)) ∧
    (∀ resp, ADMIN_USER_ID ∈ get_admin_users resp ∧ get_admin_users resp ≠ []) := by
  constructor
  · intro text chat_id u patch_resp reload_resp admin_users st hlen htarget
    unfold admin_remove_admin_sync
    rw [if_neg (by omega)]
    simp [htarget]
  · intro resp
    have hmem : ADMIN_USER_ID ∈ get_admin_users resp := by
      cases resp with
      | none => simp [get_admin_users]
      | some pages =>
        unfold get_admin_users
        refine mem_foldl_of_step_mono _ ADMIN_USER_ID ?_ pages [ADMIN_USER_ID] (by simp)
        intro acc x
        cases x with
        | none => exact fun _ h => h
        | some tid =>
          show acc ⊆ if tid ≠ 0 ∧ tid ∉ acc then acc ++ [tid] else acc
          by_cases hc : tid ≠ 0 ∧ tid ∉ acc
          · rw [if_pos hc]
            exact List.subset_append_left acc [tid]
          · rw [if_neg hc]
            exact fun _ hmem => hmem
    exact ⟨hmem, List.ne_nil_of_mem hmem⟩

/-- C9 witness: a demote aimed at the fallback admin is refused with state
untouched, and a roster load over a row set without the fallback id still
contains it. -/
theorem c9_demote_guard_and_roster_witness :
    admin_remove_admin_sync "/remove_admin @boss".toList 9
        (some ⟨"pid".toList, "Boss".toList, some ADMIN_USER_ID⟩) (some ()) none [1, 2]
        ⟨[], []⟩ =
      ([.sendText 9 .cannotRemovePrimaryAdmin], [1, 2], ⟨[], []⟩) ∧
    ADMIN_USER_ID ∈ get_admin_users (some [some 5]) :=
  ⟨c9_demote_guard_and_roster.1 "/remove_admin @boss".toList 9
      ⟨"pid".toList, "Boss".toList, some ADMIN_USER_ID⟩ (some ()) none [1, 2] ⟨[], []⟩
      (by decide) rfl,
   (c9_demote_guard_and_roster.2 (some [some 5])).1⟩

-- ===== Claim C10 =====

/-- C10: an inbound message missing the sender id, missing the chat id, or
with empty (or absent, which the .get default renders empty) text makes the
handler return immediately: no effect is emitted — nothing is appended to
the conversation store and no reply of any kind is sent — and all state is
unchanged. -/
theorem c10_invalid_update_dropped (msg : InMessage) (admin_users : List Int)
    (fs : FileSys) (st : NotionState) (rl : RateLimiter) (q : QueryOutcome)
    (backend : Option Str) (now : Int) (time_info : Str)
    (h : msg.from_id = none ∨ msg.chat_id = none ∨ msg.text = []) :
    handle_message_sync msg admin_users fs st rl q backend now time_info =
      ([], fs, st, rl) := by
  unfold handle_message_sync
  rcases h with h | h | h
  · rw [h]
  · rw [h]
    cases msg.from_id <;> rfl
  · cases hf : msg.from_id with
    | none => rfl
    | some uid =>
      cases hc : msg.chat_id with
      | none => rfl
      | some ch => rw [h]; simp

/-- C10 witness: a media-only message (no text) from a valid sender is
dropped without any logging or reply. -/
theorem c10_invalid_update_dropped_witness :
    handle_message_sync ⟨some 5, some 6, [], some "Ann".toList⟩ [] [] ⟨[], []⟩ ⟨2, []⟩
        .failure none 0 "t".toList = ([], [], ⟨[], []⟩, ⟨2, []⟩) :=
  c10_invalid_update_dropped ⟨some 5, some 6, [], some "Ann".toList⟩ [] [] ⟨[], []⟩ ⟨2, []⟩
    .failure none 0 "t".toList (Or.inr (Or.inr rfl))

-- ===== Claim C6 =====

theorem findConversationFile_first (uid : Int) (n c : Str)
    (hn : ".txt".toList <:+ n) (hc : idMarker uid <:+: c) :
    ∀ pre post : FileSys,
      (∀ p ∈ pre, ¬ ((".txt".toList <:+ p.1) ∧ (idMarker uid <:+: p.2))) →
      findConversationFile (pre ++ (n, c) :: post) uid = some (n, c) := by
  intro pre
  induction pre with
  | nil =>
    intro post _
    rw [List.nil_append]
    unfold findConversationFile
    rw [if_pos ⟨hn, hc⟩]
  | cons p pre ih =>
    intro post hpre
    obtain ⟨pn, pc⟩ := p
    have hp := hpre (pn, pc) (List.mem_cons_self _ _)
    rw [List.cons_append]
    unfold findConversationFile
    rw [if_neg hp]
    exact ih post (fun x hx => hpre x (List.mem_cons_of_mem _ hx))

theorem archive_conversation_first (uid : Int) (ts n c : Str)
    (hn : ".txt".toList <:+ n) (hc : idMarker uid <:+: c) :
    ∀ pre post : FileSys,
      (∀ p ∈ pre, ¬ ((".txt".toList <:+ p.1) ∧ (idMarker uid <:+: p.2))) →
      archive_conversation (pre ++ (n, c) :: post) uid ts =
        (true, pre ++ (pyReplaceTxt n ++ "_archived_".toList ++ ts ++ ".txt".toList, c)
          :: post) := by
  intro pre
  induction pre with
  | nil =>
    intro post _
    rw [List.nil_append]
    unfold archive_conversation
    rw [if_pos ⟨hn, hc⟩]
    rfl
  | cons p pre ih =>
    intro post hpre
    obtain ⟨pn, pc⟩ := p
    have hp := hpre (pn, pc) (List.mem_cons_self _ _)
    rw [List.cons_append]
    unfold archive_conversation
    rw [if_neg hp, ih post (fun x hx => hpre x (List.mem_cons_of_mem _ hx))]
    rfl

theorem stem_of_append_txt (x : Str) :
    (x ++ ".txt".toList).take ((x ++ ".txt".toList).length - 4) = x := by
  have h4 : (".txt".toList : Str).length = 4 := rfl
  have hl : (x ++ ".txt".toList).length - 4 = x.length := by
    rw [List.length_append, h4]
    omega
  rw [hl]
  exact List.take_left x _

/-- C6 counterexample: archiving renames bob.txt to a name that still ends
in ".txt" and still holds the marker, so the very next find call matches the
archived file and returns it — contradicting the claim that subsequent find
calls do not match the archived file. -/
theorem c6_archive_counterexample :
    (archive_conversation c6Fs 7 "20240101_000000".toList).1 = true ∧
    find_username_by_user_id (archive_conversation c6Fs 7 "20240101_000000".toList).2 7 =
      some "bob_archived_20240101_000000".toList := by
  decide

/-- C6 (amended): archive renames the first log containing the user's marker
by inserting "_archived_" and the timestamp before ".txt", keeping content
and directory position; because the archived file still ends in ".txt" and
still contains the marker, a subsequent find call (here with the archived
file the first match) matches the archived file and returns its stem —
archived files are not excluded from the active content scan. -/
theorem c6_archive_rename_still_found (pre post : FileSys) (n c : Str) (uid : Int) (ts : Str)
    (hpre : ∀ p ∈ pre, ¬ ((".txt".toList <:+ p.1) ∧ (idMarker uid <:+: p.2)))
    (hn : ".txt".toList <:+ n) (hc : idMarker uid <:+: c) :
    archive_conversation (pre ++ (n, c) :: post) uid ts =
      (true, pre ++ (pyReplaceTxt n ++ "_archived_".toList ++ ts ++ ".txt".toList, c)
        :: post) ∧
    find_username_by_user_id (archive_conversation (pre ++ (n, c) :: post) uid ts).2 uid =
      some (pyReplaceTxt n ++ "_archived_".toList ++ ts) := by
  have harch := archive_conversation_first uid ts n c hn hc pre post hpre
  refine ⟨harch, ?_⟩
  rw [harch]
  have hconv : pyReplaceTxt n ++ "_archived_".toList ++ ts ++ ".txt".toList =
      (pyReplaceTxt n ++ "_archived_".toList ++ ts) ++ ".txt".toList := by
    simp [List.append_assoc]
  unfold find_username_by_user_id
  rw [hconv, findConversationFile_first uid _ c (List.suffix_append _ _) hc pre post hpre]
  simp only [Option.map_some']
  rw [stem_of_append_txt]

/-- C6 witness: a single fresh log for the user; after archiving, find
returns the archived file. -/
theorem c6_archive_rename_still_found_witness :
    archive_conversation [("u.txt".toList, idMarker 3)] 3 "ts".toList =
      (true, [("u_archived_ts.txt".toList, idMarker 3)]) ∧
    find_username_by_user_id
        (archive_conversation [("u.txt".toList, idMarker 3)] 3 "ts".toList).2 3 =
      some "u_archived_ts".toList := by
  have h := c6_archive_rename_still_found [] [] "u.txt".toList (idMarker 3) 3 "ts".toList
    (by simp) (by decide) (by decide)
  simp only [List.nil_append] at h
  constructor
  · rw [h.1]; decide
  · rw [h.2]; decide

-- ===== Claim C3 =====

set_option maxRecDepth 100000 in
/-- C3 failing input, contradicting save_conversation's own documentation
("This ensures BOTH user messages and bot responses go to the SAME file"):
the user's message lands in the 50-character file name ending in a space;
the reply path re-sanitizes the file name found by the marker scan, which
strips that trailing space, so the reply is appended to a different file.
The file returned by find contains only the user line, and the bot line
lives in a second file. -/
theorem c3_bot_reply_lands_in_different_file :
    find_username_by_user_id c3AfterBotReply 42 = some (List.replicate 49 'a' ++ [' ']) ∧
    lookupFile c3AfterBotReply (List.replicate 49 'a' ++ [' '] ++ ".txt".toList) =
      some (formatMessageLine "t1".toList c3LongName "42".toList "hello".toList) ∧
    lookupFile c3AfterBotReply (List.replicate 49 'a' ++ ".txt".toList) =
      some (formatMessageLine "t2".toList "10x GM AI".toList "BOT_ID".toList "ok".toList) ∧
    (List.replicate 49 'a' ++ [' '] : Str) ≠ List.replicate 49 'a' := by
  decide

-- ===== Claim C4 =====

theorem save_conversation_user (fs : FileSys) (uid : Int) (name content t : Str) :
    save_conversation fs uid name content "USER".toList none t =
      appendFile fs (sanitize_filename name ++ ".txt".toList)
        (formatMessageLine t name (toString uid).toList content) := by
  simp only [save_conversation]
  rw [if_neg (by decide : ¬ ("USER".toList : Str) = "BOT_ID".toList)]
  simp

theorem appendFile_new (fs : FileSys) (n d : Str) (h : lookupFile fs n = none) :
    appendFile fs n d = fs ++ [(n, d)] := by
  induction fs with
  | nil => rfl
  | cons p rest ih =>
    obtain ⟨m, c⟩ := p
    unfold lookupFile at h
    unfold appendFile
    by_cases hm : m = n
    · rw [if_pos hm] at h
      exact Option.noConfusion h
    · rw [if_neg hm] at h ⊢
      rw [ih h, List.cons_append]

theorem appendFile_append_single (fs : FileSys) (n c d : Str) (h : lookupFile fs n = none) :
    appendFile (fs ++ [(n, c)]) n d = fs ++ [(n, c ++ d)] := by
  induction fs with
  | nil => simp [appendFile]
  | cons p rest ih =>
    obtain ⟨m, c'⟩ := p
    unfold lookupFile at h
    by_cases hm : m = n
    · rw [if_pos hm] at h
      exact Option.noConfusion h
    · rw [if_neg hm] at h
      rw [List.cons_append, List.cons_append]
      unfold appendFile
      rw [if_neg hm, ih h]

theorem appendUserMessages_append_single (uid : Int) (name : Str) (fs : FileSys)
    (h : lookupFile fs (sanitize_filename name ++ ".txt".toList) = none) :
    ∀ (msgs : List (Str × Str)) (c : Str),
      appendUserMessages (fs ++ [(sanitize_filename name ++ ".txt".toList, c)]) uid name
          msgs =
        fs ++ [(sanitize_filename name ++ ".txt".toList,
          c ++ (msgs.map
            (fun m => formatMessageLine m.1 name (toString uid).toList m.2)).flatten)] := by
  intro msgs
  induction msgs with
  | nil =>
    intro c
    simp [appendUserMessages]
  | cons m ms ih =>
    intro c
    unfold appendUserMessages at ih ⊢
    rw [List.foldl_cons, save_conversation_user, appendFile_append_single fs _ _ _ h, ih]
    simp [List.append_assoc]

theorem appendUserMessages_fresh (uid : Int) (name : Str) (fs : FileSys)
    (h : lookupFile fs (sanitize_filename name ++ ".txt".toList) = none)
    (ms : List (Str × Str)) (m0 : Str × Str) :
    appendUserMessages fs uid name (m0 :: ms) =
      fs ++ [(sanitize_filename name ++ ".txt".toList,
        ((m0 :: ms).map
          (fun m => formatMessageLine m.1 name (toString uid).toList m.2)).flatten)] := by
  unfold appendUserMessages
  rw [List.foldl_cons, save_conversation_user, appendFile_new fs _ _ h]
  have hrest := appendUserMessages_append_single uid name fs h ms
    (formatMessageLine m0.1 name (toString uid).toList m0.2)
  unfold appendUserMessages at hrest
  rw [hrest]
  simp

theorem findConversationFile_eq_none (uid : Int) :
    ∀ fs : FileSys, (∀ p ∈ fs, ¬ (idMarker uid <:+: p.2)) →
      findConversationFile fs uid = none := by
  intro fs
  induction fs with
  | nil => intro _; rfl
  | cons p rest ih =>
    intro h
    obtain ⟨pn, pc⟩ := p
    unfold findConversationFile
    rw [if_neg (fun hcond => h (pn, pc) (List.mem_cons_self _ _) hcond.2)]
    exact ih (fun x hx => h x (List.mem_cons_of_mem _ hx))

theorem pyReadLinesAux_append (b : Str) : ∀ (a acc : Str), '\n' ∉ a →
    pyReadLinesAux (a ++ '\n' :: b) acc =
      ((acc.reverse ++ a) ++ ['\n']) :: pyReadLinesAux b [] := by
  intro a
  induction a with
  | nil =>
    intro acc _
    rw [List.nil_append]
    have hstep : pyReadLinesAux ('\n' :: b) acc =
        (acc.reverse ++ ['\n']) :: pyReadLinesAux b [] := by
      simp only [pyReadLinesAux, if_true]
    rw [hstep]
    simp
  | cons c a ih =>
    intro acc hna
    rw [List.mem_cons, not_or] at hna
    have hstep : pyReadLinesAux (c :: (a ++ '\n' :: b)) acc =
        pyReadLinesAux (a ++ '\n' :: b) (c :: acc) := by
      simp only [pyReadLinesAux]
      rw [if_neg (fun hh => hna.1 hh.symm)]
    rw [List.cons_append, hstep, ih (c :: acc) hna.2]
    simp [List.append_assoc]

theorem pyReadLines_flatten : ∀ bodies : List Str, (∀ b ∈ bodies, '\n' ∉ b) →
    pyReadLines ((bodies.map (fun b => b ++ ['\n'])).flatten) =
      bodies.map (fun b => b ++ ['\n']) := by
  intro bodies
  induction bodies with
  | nil => intro _; rfl
  | cons b bs ih =>
    intro h
    rw [List.map_cons, List.flatten_cons]
    have hb : (b ++ ['\n']) ++ ((bs.map (fun b => b ++ ['\n'])).flatten) =
        b ++ '\n' :: ((bs.map (fun b => b ++ ['\n'])).flatten) := by
      simp
    unfold pyReadLines
    rw [hb, pyReadLinesAux_append _ b [] (h b (List.mem_cons_self _ _))]
    have htail : pyReadLinesAux ((bs.map (fun b => b ++ ['\n'])).flatten) [] =
        pyReadLines ((bs.map (fun b => b ++ ['\n'])).flatten) := rfl
    rw [htail, ih (fun x hx => h x (List.mem_cons_of_mem _ hx))]
    simp

theorem pyStrip_append_newline (x : Str) : pyStrip (x ++ ['\n']) = pyStrip x := by
  unfold pyStrip
  rw [List.dropWhile_append]
  by_cases h : (List.dropWhile pyIsSpace x).isEmpty = true
  · rw [if_pos h]
    rw [List.isEmpty_iff] at h
    rw [h]
    rfl
  · rw [if_neg h]
    rw [List.reverse_append]
    have hsingle : (['\n'] : Str).reverse = ['\n'] := rfl
    rw [hsingle, List.singleton_append,
      List.dropWhile_cons_of_pos (by decide : pyIsSpace '\n' = true)]

theorem pyStrip_ne_nil (l : Str) (c : Char) (hc : c ∈ l) (hcs : pyIsSpace c = false) :
    pyStrip l ≠ [] := by
  intro h
  unfold pyStrip at h
  rw [List.reverse_eq_nil_iff, List.dropWhile_eq_nil_iff] at h
  have hall : ∀ x ∈ List.dropWhile pyIsSpace l, pyIsSpace x = true := by
    intro x hx
    exact h x (List.mem_reverse.mpr hx)
  have hsplit : c ∈ List.takeWhile pyIsSpace l ++ List.dropWhile pyIsSpace l := by
    rw [List.takeWhile_append_dropWhile]
    exact hc
  have : pyIsSpace c = true := by
    rcases List.mem_append.mp hsplit with h1 | h2
    · exact List.mem_takeWhile_imp h1
    · exact hall c h2
  rw [this] at hcs
  exact Bool.noConfusion hcs

theorem newline_not_mem_idMarker (uid : Int) (hrep : '\n' ∉ (toString uid).toList) :
    '\n' ∉ idMarker uid := by
  intro h
  unfold idMarker idMarkerOf at h
  rcases List.mem_append.mp h with h' | h'
  · rcases List.mem_append.mp h' with h'' | h''
    · exact absurd h'' (by decide)
    · exact hrep h''
  · exact absurd h' (by decide)

theorem newline_not_mem_userLineBody (uid : Int) (t name c : Str)
    (ht : '\n' ∉ t) (hn : '\n' ∉ name) (hc : '\n' ∉ c)
    (hrep : '\n' ∉ (toString uid).toList) :
    '\n' ∉ userLineBody uid name t c := by
  intro h
  unfold userLineBody at h
  rcases List.mem_append.mp h with h1 | h1
  · rcases List.mem_append.mp h1 with h2 | h2
    · rcases List.mem_append.mp h2 with h3 | h3
      · rcases List.mem_append.mp h3 with h4 | h4
        · rcases List.mem_append.mp h4 with h5 | h5
          · rcases List.mem_append.mp h5 with h6 | h6
            · exact ht h6
            · exact absurd h6 (by decide)
          · exact hn h5
        · exact absurd h4 (by decide)
      · exact newline_not_mem_idMarker uid hrep h3
    · exact absurd h2 (by decide)
  · exact hc h1

theorem idTag_infix_idMarker (uid : Int) : "ID:".toList <:+: idMarker uid := by
  refine ⟨['['], ' ' :: ((toString uid).toList ++ "]:".toList), ?_⟩
  unfold idMarker idMarkerOf
  have e1 : ("[ID: ".toList : Str) = '[' :: 'I' :: 'D' :: ':' :: ' ' :: [] := rfl
  have e2 : ("ID:".toList : Str) = 'I' :: 'D' :: ':' :: [] := rfl
  rw [e1, e2]
  simp [List.append_assoc]

theorem hasIdTag_of_idMarker_infix (l : Str) (uid : Int) (h : idMarker uid <:+: l) :
    hasIdTag l = true := by
  unfold hasIdTag
  exact decide_eq_true ((idTag_infix_idMarker uid).trans h)

theorem infix_append_of_infix {x l : Str} (r : Str) (h : x <:+: l) : x <:+: l ++ r :=
  h.trans ⟨[], r, by simp⟩

theorem idMarker_infix_userLine (uid : Int) (name t c : Str) :
    idMarker uid <:+: (userLineBody uid name t c ++ ['\n']) := by
  refine ⟨t ++ [' '] ++ name ++ [' '], " --- ".toList ++ c ++ ['\n'], ?_⟩
  unfold userLineBody
  simp [List.append_assoc]

theorem colon_mem_idMarker (uid : Int) : ':' ∈ idMarker uid := by
  unfold idMarker idMarkerOf
  exact List.mem_append_left _ (List.mem_append_left _ (by decide))

theorem colon_mem_userLine (uid : Int) (name t c : Str) :
    ':' ∈ userLineBody uid name t c ++ ['\n'] := by
  apply List.mem_append_left
  unfold userLineBody
  exact List.mem_append_left _
    (List.mem_append_left _ (List.mem_append_right _ (colon_mem_idMarker uid)))

theorem filter_lines_eq_self (uid : Int) (name : Str) (msgs : List (Str × Str)) :
    ((msgs.map (fun m => userLineBody uid name m.1 m.2)).map (fun b => b ++ ['\n'])).filter
        (fun l => !(pyStrip l).isEmpty && hasIdTag l) =
      (msgs.map (fun m => userLineBody uid name m.1 m.2)).map (fun b => b ++ ['\n']) := by
  rw [List.filter_eq_self]
  intro line hline
  rw [List.mem_map] at hline
  obtain ⟨b, hb, rfl⟩ := hline
  rw [List.mem_map] at hb
  obtain ⟨m, hm, rfl⟩ := hb
  rw [Bool.and_eq_true]
  constructor
  · rw [Bool.not_eq_true']
    cases hh : (pyStrip (userLineBody uid name m.1 m.2 ++ ['\n'])).isEmpty
    · rfl
    · rw [List.isEmpty_iff] at hh
      exact absurd hh (pyStrip_ne_nil _ ':' (colon_mem_userLine uid name m.1 m.2) (by decide))
  · exact hasIdTag_of_idMarker_infix _ uid (idMarker_infix_userLine uid name m.1 m.2)

theorem map_pyStrip_newline (bodies : List Str) :
    (bodies.map (fun b => b ++ ['\n'])).map pyStrip = bodies.map pyStrip := by
  induction bodies with
  | nil => rfl
  | cons b bs ih => simp only [List.map_cons, ih, pyStrip_append_newline]

theorem formatMessageLine_eq_userLineBody (uid : Int) (name t c : Str) :
    formatMessageLine t name (toString uid).toList c = userLineBody uid name t c ++ ['\n'] := by
  unfold formatMessageLine userLineBody idMarker
  simp [List.append_assoc]

theorem line_map_eq_body_map (uid : Int) (name : Str) (msgs : List (Str × Str)) :
    msgs.map (fun m => formatMessageLine m.1 name (toString uid).toList m.2) =
      (msgs.map (fun m => userLineBody uid name m.1 m.2)).map (fun b => b ++ ['\n']) := by
  induction msgs with
  | nil => rfl
  | cons m ms ih =>
    simp only [List.map_cons, ih, formatMessageLine_eq_userLineBody, List.map_map]
    rfl

/-- C4 counterexample: with one message in the log, a read with count 0
returns that one message instead of min(0, 1) = 0 messages — the Python
slice lines[-0:] is the whole list, so recent(U, 0) returns the entire
log. -/
theorem c4_zero_count_counterexample :
    (get_recent_messages c4OneMessageFs 7 0).length = 1 ∧ min 0 1 = 0 := by
  decide

/-- C4 (amended): for every count k of at least 1, appending N messages for
a fresh user (no prior log file of that name, no prior file holding the
user's marker, message parts free of newlines) and reading recent(U, k)
returns exactly the last min(k, N) logged lines, stripped, in their original
chronological order — oldest first — having filtered out blank lines and
lines without an ID marker; for k = 0 the whole log is returned instead. -/
theorem c4_recent_messages_window (fs : FileSys) (uid : Int) (name : Str)
    (msgs : List (Str × Str)) (k : Nat)
    (hfile : lookupFile fs (sanitize_filename name ++ ".txt".toList) = none)
    (hmark : ∀ p ∈ fs, ¬ (idMarker uid <:+: p.2))
    (hnl : ∀ m ∈ msgs, '\n' ∉ m.1 ∧ '\n' ∉ m.2)
    (hnlN : '\n' ∉ name) (hrep : '\n' ∉ (toString uid).toList)
    (hk : 1 ≤ k) :
    get_recent_messages (appendUserMessages fs uid name msgs) uid k =
      (msgs.map (fun m => pyStrip (userLineBody uid name m.1 m.2))).drop
        (msgs.length - k) ∧
    (get_recent_messages (appendUserMessages fs uid name msgs) uid k).length =
      min k msgs.length := by
  cases msgs with
  | nil =>
    have hnone := findConversationFile_eq_none uid fs hmark
    have hres : get_recent_messages (appendUserMessages fs uid name []) uid k = [] := by
      unfold appendUserMessages
      rw [List.foldl_nil]
      unfold get_recent_messages
      rw [hnone]
    rw [hres]
    simp
  | cons m0 ms =>
    have hbodies : ∀ b ∈ (m0 :: ms).map (fun m => userLineBody uid name m.1 m.2),
        '\n' ∉ b := by
      intro b hb
      rw [List.mem_map] at hb
      obtain ⟨m, hm, rfl⟩ := hb
      exact newline_not_mem_userLineBody uid m.1 name m.2 (hnl m hm).1 hnlN (hnl m hm).2 hrep
    have hmark' : ∀ p ∈ fs, ¬ ((".txt".toList <:+ p.1) ∧ (idMarker uid <:+: p.2)) :=
      fun p hp hcond => hmark p hp hcond.2
    have hinfix : idMarker uid <:+:
        (((m0 :: ms).map
          (fun m => formatMessageLine m.1 name (toString uid).toList m.2)).flatten) := by
      rw [List.map_cons, List.flatten_cons, formatMessageLine_eq_userLineBody]
      exact infix_append_of_infix _ (idMarker_infix_userLine uid name m0.1 m0.2)
    have hfind : findConversationFile (appendUserMessages fs uid name (m0 :: ms)) uid =
        some (sanitize_filename name ++ ".txt".toList,
          ((m0 :: ms).map
            (fun m => formatMessageLine m.1 name (toString uid).toList m.2)).flatten) := by
      rw [appendUserMessages_fresh uid name fs hfile ms m0]
      exact findConversationFile_first uid _ _ (List.suffix_append _ _) hinfix fs [] hmark'
    have hres : get_recent_messages (appendUserMessages fs uid name (m0 :: ms)) uid k =
        ((m0 :: ms).map (fun m => pyStrip (userLineBody uid name m.1 m.2))).drop
          ((m0 :: ms).length - k) := by
      have hfind2 : findConversationFile (appendUserMessages fs uid name (m0 :: ms)) uid =
          some (sanitize_filename name ++ ".txt".toList,
            (((m0 :: ms).map (fun m => userLineBody uid name m.1 m.2)).map
              (fun b => b ++ ['\n'])).flatten) := by
        rw [hfind, line_map_eq_body_map]
      unfold get_recent_messages
      rw [hfind2]
      dsimp only
      rw [pyReadLines_flatten _ hbodies, filter_lines_eq_self uid name (m0 :: ms),
        map_pyStrip_newline, List.map_map]
      rw [if_neg (by omega : ¬ k = 0), List.length_map]
      rfl
    refine ⟨hres, ?_⟩
    rw [hres, List.length_drop, List.length_map]
    omega

/-- C4 witness: two messages, window 1, returns exactly the most recent
line. -/
theorem c4_recent_messages_window_witness :
    get_recent_messages (appendUserMessages [] 7 "bob".toList
        [("t1".toList, "hi".toList), ("t2".toList, "yo".toList)]) 7 1 =
      ["t2 bob [ID: 7]: --- yo".toList] ∧
    (get_recent_messages (appendUserMessages [] 7 "bob".toList
        [("t1".toList, "hi".toList), ("t2".toList, "yo".toList)]) 7 1).length = 1 := by
  have h := c4_recent_messages_window [] 7 "bob".toList
    [("t1".toList, "hi".toList), ("t2".toList, "yo".toList)] 1
    rfl (by simp) (by decide) (by decide) (by decide) (by decide)
  constructor
  · rw [h.1]; decide
  · rw [h.2]; decide

-- ===== Claim C7 =====

/-- C7 counterexample: an inbound update carrying an empty text field (for
example a media-only message) produces no effects at all — in particular the
raw message is not logged to the conversation store, contradicting the claim
that every inbound update is logged unconditionally. -/
theorem c7_unlogged_counterexample :
    handle_message_sync ⟨some 5, some 5, [], some "x".toList⟩ [] [] ⟨[], []⟩ ⟨2, []⟩
        .failure none 0 "t".toList = ([], [], ⟨[], []⟩, ⟨2, []⟩) := by
  decide

/-- C7 (amended): every inbound message that passes the validity guard
(present non-zero sender id and chat id, non-empty text) is logged to the
conversation store before any other effect — the first emitted action is
always the audit-log append; the remaining handling proceeds in the fixed
order admin dispatch, plain command table, group redirect, authorization,
rate limit, backend call, stopping at the first stage that applies: each
stage's exact effect list is given below, so in particular a sender who
fails authorization never reaches the rate limiter (whose state is returned
unchanged) or the backend.  Messages failing the guard are dropped entirely
(see the C10 analysis). -/
theorem c7_stage_order (msg : InMessage) (admin_users : List Int) (fs : FileSys)
    (st : NotionState) (rl : RateLimiter) (q : QueryOutcome) (backend : Option Str)
    (now : Int) (time_info : Str) (user_id chat_id : Int)
    (hf : msg.from_id = some user_id) (hc : msg.chat_id = some chat_id)
    (hu : user_id ≠ 0) (hch : chat_id ≠ 0) (ht : msg.text ≠ []) :
    ((handle_message_sync msg admin_users fs st rl q backend now time_info).1.head? =
      some (loggedAction msg user_id)) ∧
    (∀ cmd, startsWithSlash msg.text = true → user_id ∈ admin_users →
      admin_command_match msg.text = some cmd →
      handle_message_sync msg admin_users fs st rl q backend now time_info =
        ([loggedAction msg user_id, .adminDispatch cmd],
         loggedFs msg user_id fs time_info, st, rl)) ∧
    (startsWithSlash msg.text = true →
      (user_id ∉ admin_users ∨ admin_command_match msg.text = none) →
      handle_message_sync msg admin_users fs st rl q backend now time_info =
        ([loggedAction msg user_id, .plainCommand (firstWordLower msg.text)],
         loggedFs msg user_id fs time_info, st, rl)) ∧
    (startsWithSlash msg.text = false → chat_id < 0 →
      handle_message_sync msg admin_users fs st rl q backend now time_info =
        ([loggedAction msg user_id, .sendText chat_id .groupRedirect],
         loggedFs msg user_id fs time_info, st, rl)) ∧
    (startsWithSlash msg.text = false → ¬ chat_id < 0 →
      (get_user_authorization st user_id now q).1.authorized = false →
      handle_message_sync msg admin_users fs st rl q backend now time_info =
        ([loggedAction msg user_id, .sendText chat_id .unauthorized],
         loggedFs msg user_id fs time_info,
         (get_user_authorization st user_id now q).2, rl)) ∧
    (startsWithSlash msg.text = false → ¬ chat_id < 0 →
      (get_user_authorization st user_id now q).1.authorized = true →
      (can_make_request rl user_id now).1 = false →
      handle_message_sync msg admin_users fs st rl q backend now time_info =
        ([loggedAction msg user_id,
          .sendText chat_id (.rateLimitWait (can_make_request rl user_id now).2.1)],
         loggedFs msg user_id fs time_info,
         (get_user_authorization st user_id now q).2, rl)) ∧
    (startsWithSlash msg.text = false → ¬ chat_id < 0 →
      (get_user_authorization st user_id now q).1.authorized = true →
      (can_make_request rl user_id now).1 = true →
      handle_message_sync msg admin_users fs st rl q backend now time_info =
        (loggedAction msg user_id ::
          (process_ai_conversation_sync user_id chat_id
            (loggedFs msg user_id fs time_info) backend time_info).1,
         (process_ai_conversation_sync user_id chat_id
            (loggedFs msg user_id fs time_info) backend time_info).2,
         (get_user_authorization st user_id now q).2,
         (can_make_request rl user_id now).2.2)) := by
  have hguard : ¬ (user_id = 0 ∨ chat_id = 0 ∨ msg.text = []) := by
    push_neg
    exact ⟨hu, hch, ht⟩
  have h_admin : ∀ cmd, startsWithSlash msg.text = true → user_id ∈ admin_users →
      admin_command_match msg.text = some cmd →
      handle_message_sync msg admin_users fs st rl q backend now time_info =
        ([loggedAction msg user_id, .adminDispatch cmd],
         loggedFs msg user_id fs time_info, st, rl) := by
    intro cmd hs ha hm
    unfold handle_message_sync
    rw [hf, hc]
    dsimp only
    rw [if_neg hguard, if_pos ⟨hs, ha⟩, hm]
    rfl
  have h_plain : startsWithSlash msg.text = true →
      (user_id ∉ admin_users ∨ admin_command_match msg.text = none) →
      handle_message_sync msg admin_users fs st rl q backend now time_info =
        ([loggedAction msg user_id, .plainCommand (firstWordLower msg.text)],
         loggedFs msg user_id fs time_info, st, rl) := by
    intro hs hcase
    unfold handle_message_sync
    rw [hf, hc]
    dsimp only
    rw [if_neg hguard]
    rcases hcase with ha | hm
    · rw [if_neg (fun hcond => ha hcond.2), if_pos hs]
      rfl
    · by_cases ha : user_id ∈ admin_users
      · rw [if_pos ⟨hs, ha⟩, hm, if_pos hs]
        rfl
      · rw [if_neg (fun hcond => ha hcond.2), if_pos hs]
        rfl
  have h_group : startsWithSlash msg.text = false → chat_id < 0 →
      handle_message_sync msg admin_users fs st rl q backend now time_info =
        ([loggedAction msg user_id, .sendText chat_id .groupRedirect],
         loggedFs msg user_id fs time_info, st, rl) := by
    intro hs hg
    unfold handle_message_sync
    rw [hf, hc]
    dsimp only
    rw [if_neg hguard, if_neg (fun hcond => by rw [hs] at hcond; exact Bool.noConfusion hcond.1),
      if_neg (fun hcond => by rw [hs] at hcond; exact Bool.noConfusion hcond)]
    unfold handle_message_sync.stageGroup
    rw [if_pos hg]
    rfl
  have h_unauth : startsWithSlash msg.text = false → ¬ chat_id < 0 →
      (get_user_authorization st user_id now q).1.authorized = false →
      handle_message_sync msg admin_users fs st rl q backend now time_info =
        ([loggedAction msg user_id, .sendText chat_id .unauthorized],
         loggedFs msg user_id fs time_info,
         (get_user_authorization st user_id now q).2, rl) := by
    intro hs hg hauth
    unfold handle_message_sync
    rw [hf, hc]
    dsimp only
    rw [if_neg hguard, if_neg (fun hcond => by rw [hs] at hcond; exact Bool.noConfusion hcond.1),
      if_neg (fun hcond => by rw [hs] at hcond; exact Bool.noConfusion hcond)]
    unfold handle_message_sync.stageGroup
    rw [if_neg hg]
    dsimp only
    rw [if_pos (by simp [hauth])]
    rfl
  have h_rate : startsWithSlash msg.text = false → ¬ chat_id < 0 →
      (get_user_authorization st user_id now q).1.authorized = true →
      (can_make_request rl user_id now).1 = false →
      handle_message_sync msg admin_users fs st rl q backend now time_info =
        ([loggedAction msg user_id,
          .sendText chat_id (.rateLimitWait (can_make_request rl user_id now).2.1)],
         loggedFs msg user_id fs time_info,
         (get_user_authorization st user_id now q).2, rl) := by
    intro hs hg hauth hcan
    unfold handle_message_sync
    rw [hf, hc]
    dsimp only
    rw [if_neg hguard, if_neg (fun hcond => by rw [hs] at hcond; exact Bool.noConfusion hcond.1),
      if_neg (fun hcond => by rw [hs] at hcond; exact Bool.noConfusion hcond)]
    unfold handle_message_sync.stageGroup
    rw [if_neg hg]
    dsimp only
    rw [if_neg (by simp [hauth])]
    rw [if_pos (by simp [hcan])]
    rw [can_make_request_denied_state rl user_id now hcan]
    rfl
  have h_ai : startsWithSlash msg.text = false → ¬ chat_id < 0 →
      (get_user_authorization st user_id now q).1.authorized = true →
      (can_make_request rl user_id now).1 = true →
      handle_message_sync msg admin_users fs st rl q backend now time_info =
        (loggedAction msg user_id ::
          (process_ai_conversation_sync user_id chat_id
            (loggedFs msg user_id fs time_info) backend time_info).1,
         (process_ai_conversation_sync user_id chat_id
            (loggedFs msg user_id fs time_info) backend time_info).2,
         (get_user_authorization st user_id now q).2,
         (can_make_request rl user_id now).2.2) := by
    intro hs hg hauth hcan
    unfold handle_message_sync
    rw [hf, hc]
    dsimp only
    rw [if_neg hguard, if_neg (fun hcond => by rw [hs] at hcond; exact Bool.noConfusion hcond.1),
      if_neg (fun hcond => by rw [hs] at hcond; exact Bool.noConfusion hcond)]
    unfold handle_message_sync.stageGroup
    rw [if_neg hg]
    dsimp only
    rw [if_neg (by simp [hauth])]
    rw [if_neg (by simp [hcan])]
    rfl
  refine ⟨?_, h_admin, h_plain, h_group, h_unauth, h_rate, h_ai⟩
  by_cases hs : startsWithSlash msg.text = true
  · by_cases ha : user_id ∈ admin_users
    · cases hm : admin_command_match msg.text with
      | some cmd => rw [h_admin cmd hs ha hm]; rfl
      | none => rw [h_plain hs (Or.inr hm)]; rfl
    · rw [h_plain hs (Or.inl ha)]; rfl
  · rw [Bool.not_eq_true] at hs
    by_cases hg : chat_id < 0
    · rw [h_group hs hg]; rfl
    · cases hauth : (get_user_authorization st user_id now q).1.authorized with
      | false => rw [h_unauth hs hg hauth]; rfl
      | true =>
        cases hcan : (can_make_request rl user_id now).1 with
        | false => rw [h_rate hs hg hauth hcan]; rfl
        | true => rw [h_ai hs hg hauth hcan]; rfl

/-- C7 witness: a plain-text message from an unauthorized sender in a
private chat is logged first and answered with the access-denied notice;
the rate limiter state is untouched and no backend call occurs. -/
theorem c7_stage_order_witness :
    (handle_message_sync ⟨some 5, some 6, "hi".toList, some "Ann".toList⟩ [] [] ⟨[], []⟩
        ⟨2, []⟩ .failure none 0 "t".toList).1.head? =
      some (loggedAction ⟨some 5, some 6, "hi".toList, some "Ann".toList⟩ 5) ∧
    handle_message_sync ⟨some 5, some 6, "hi".toList, some "Ann".toList⟩ [] [] ⟨[], []⟩
        ⟨2, []⟩ .failure none 0 "t".toList =
      ([loggedAction ⟨some 5, some 6, "hi".toList, some "Ann".toList⟩ 5,
        .sendText 6 .unauthorized],
       loggedFs ⟨some 5, some 6, "hi".toList, some "Ann".toList⟩ 5 [] "t".toList,
       (get_user_authorization ⟨[], []⟩ 5 0 .failure).2, ⟨2, []⟩) := by
  have h := c7_stage_order ⟨some 5, some 6, "hi".toList, some "Ann".toList⟩ [] [] ⟨[], []⟩
    ⟨2, []⟩ .failure none 0 "t".toList 5 6 rfl rfl (by decide) (by decide) (by decide)
  exact ⟨h.1, h.2.2.2.2.1 rfl (by decide) (by decide)⟩
